import Mathlib

/-!
Shallow embedding of the overlay text-decoration engine (`src/overlay.rs`):
an `Overlay` value type (half-open byte range, appearance, integer priority,
optional id, optional message), an `OverlayManager` store kept sorted by
priority through a stable sort on every insertion, and preset constructors.
Rust's `Vec::sort_by_key` is a stable sort; it is modelled by
`List.mergeSort`, which is proved stable in the standard library.
-/

/-- Terminal color, mirroring the `ratatui::style::Color` variants used in the source. -/
inductive Color where
  | Red : Color
  | Yellow : Color
  | Blue : Color
  | Gray : Color
  | Green : Color
  | Rgb : Nat → Nat → Nat → Color
deriving DecidableEq, Repr

/-- Opaque style bundle standing for `ratatui::style::Style` (external value type;
none of its fields are inspected by the engine). -/
structure Style where
  fg : Option Color
  bg : Option Color
deriving DecidableEq, Repr

/-- Style of underline (`UnderlineStyle` in the source). -/
inductive UnderlineStyle where
  | Straight : UnderlineStyle
  | Wavy : UnderlineStyle
  | Dotted : UnderlineStyle
  | Dashed : UnderlineStyle
deriving DecidableEq, Repr

/-- Overlay face - visual appearance of an overlay (`OverlayFace` in the source). -/
inductive OverlayFace where
  | Underline : Color → UnderlineStyle → OverlayFace
  | Background : Color → OverlayFace
  | Foreground : Color → OverlayFace
  | Style : Style → OverlayFace
deriving DecidableEq, Repr

/-- Half-open byte range `[start, end)`, mirroring `std::ops::Range<usize>`. -/
structure Range where
  start : Nat
  «end» : Nat
deriving DecidableEq, Repr

/-- Rust `Range::contains` from the Rust standard library on `usize`:
`start <= position && position < end`. -/
def Range.contains (r : Range) (position : Nat) : Bool :=
  decide (r.start ≤ position ∧ position < r.«end»)

/-- An overlay: a visual decoration over a range of text (`Overlay` in the source). -/
structure Overlay where
  range : Range
  face : OverlayFace
  priority : Int
  id : Option String
  message : Option String
deriving DecidableEq, Repr

/-- Rust `Overlay::new`: default priority 0, no id, no message. -/
def Overlay.new (range : Range) (face : OverlayFace) : Overlay :=
  ⟨range, face, 0, none, none⟩

/-- Rust `Overlay::with_priority`. -/
def Overlay.with_priority (range : Range) (face : OverlayFace) (priority : Int) : Overlay :=
  ⟨range, face, priority, none, none⟩

/-- Rust `Overlay::with_id`. -/
def Overlay.with_id (range : Range) (face : OverlayFace) (id : String) : Overlay :=
  ⟨range, face, 0, some id, none⟩

/-- Rust `Overlay::with_message`. -/
def Overlay.with_message (o : Overlay) (message : String) : Overlay :=
  { o with message := some message }

/-- Rust `Overlay::with_priority_value`. -/
def Overlay.with_priority_value (o : Overlay) (priority : Int) : Overlay :=
  { o with priority := priority }

/-- Rust `Overlay::contains`: delegates to `Range::contains`. -/
def Overlay.contains (o : Overlay) (position : Nat) : Bool :=
  o.range.contains position

/-- Rust `Overlay::overlaps`: `self.range.start < range.end && range.start < self.range.end`. -/
def Overlay.overlaps (o : Overlay) (range : Range) : Bool :=
  decide (o.range.start < range.«end» ∧ range.start < o.range.«end»)

/-- Rust `Overlay::error`: wavy red underline, priority 10, the given message. -/
def Overlay.error (range : Range) (message : Option String) : Overlay :=
  { Overlay.with_priority range (OverlayFace.Underline Color.Red UnderlineStyle.Wavy) 10
    with message := message }

/-- Rust `Overlay::warning`: wavy yellow underline, priority 5, the given message. -/
def Overlay.warning (range : Range) (message : Option String) : Overlay :=
  { Overlay.with_priority range (OverlayFace.Underline Color.Yellow UnderlineStyle.Wavy) 5
    with message := message }

/-- Rust `Overlay::info`: wavy blue underline, priority 3, the given message. -/
def Overlay.info (range : Range) (message : Option String) : Overlay :=
  { Overlay.with_priority range (OverlayFace.Underline Color.Blue UnderlineStyle.Wavy) 3
    with message := message }

/-- Rust `Overlay::hint`: dotted gray underline, priority 1, the given message. -/
def Overlay.hint (range : Range) (message : Option String) : Overlay :=
  { Overlay.with_priority range (OverlayFace.Underline Color.Gray UnderlineStyle.Dotted) 1
    with message := message }

/-- Rust `Overlay::selection`: background tint, priority -10, no message. -/
def Overlay.selection (range : Range) : Overlay :=
  Overlay.with_priority range (OverlayFace.Background (Color.Rgb 38 79 120)) (-10)

/-- Rust `Overlay::search_match`: background tint, priority -5, no message. -/
def Overlay.search_match (range : Range) : Overlay :=
  Overlay.with_priority range (OverlayFace.Background (Color.Rgb 72 72 0)) (-5)

/-- Comparison used by `sort_by_key(|o| o.priority)`: ascending priority. -/
def priorityLe (a b : Overlay) : Bool :=
  decide (a.priority ≤ b.priority)

/-- Rust `OverlayManager`: owns the collection of overlays for one buffer. -/
structure OverlayManager where
  overlays : List Overlay
deriving DecidableEq, Repr

/-- Rust `OverlayManager::new`: empty store. -/
def OverlayManager.new : OverlayManager :=
  ⟨[]⟩

/-- Rust `OverlayManager::add`: push, then re-sort the whole sequence by priority
(ascending) with a stable sort, as `Vec::sort_by_key` does. -/
def OverlayManager.add (m : OverlayManager) (overlay : Overlay) : OverlayManager :=
  ⟨(m.overlays ++ [overlay]).mergeSort priorityLe⟩

/-- Rust `OverlayManager::remove_by_id`: retain overlays whose id is not `Some(id)`. -/
def OverlayManager.remove_by_id (m : OverlayManager) (id : String) : OverlayManager :=
  ⟨m.overlays.filter (fun o => decide (o.id ≠ some id))⟩

/-- Rust `OverlayManager::remove_in_range`: retain overlays that do not overlap the range. -/
def OverlayManager.remove_in_range (m : OverlayManager) (range : Range) : OverlayManager :=
  ⟨m.overlays.filter (fun o => !(o.overlaps range))⟩

/-- Rust `OverlayManager::clear`: empties the store. -/
def OverlayManager.clear (_ : OverlayManager) : OverlayManager :=
  ⟨[]⟩

/-- Rust `OverlayManager::at_position`: all overlays containing the position,
in store order (a filter; no sort at query time). -/
def OverlayManager.at_position (m : OverlayManager) (position : Nat) : List Overlay :=
  m.overlays.filter (fun o => o.contains position)

/-- Rust `OverlayManager::in_range`: all overlays overlapping the range,
in store order (a filter; no sort at query time). -/
def OverlayManager.in_range (m : OverlayManager) (range : Range) : List Overlay :=
  m.overlays.filter (fun o => o.overlaps range)

/-- Rust `OverlayManager::get_by_id`: first overlay in store order with the given id. -/
def OverlayManager.get_by_id (m : OverlayManager) (id : String) : Option Overlay :=
  m.overlays.find? (fun o => decide (o.id = some id))

/-- Rust `OverlayManager::len`. -/
def OverlayManager.len (m : OverlayManager) : Nat :=
  m.overlays.length

/-- Rust `OverlayManager::is_empty`. -/
def OverlayManager.is_empty (m : OverlayManager) : Bool :=
  m.overlays.isEmpty

/-- Rust `OverlayManager::all`: full ordered snapshot. -/
def OverlayManager.all (m : OverlayManager) : List Overlay :=
  m.overlays

/-- The store's sequence is non-decreasing in priority. -/
abbrev sortedByPriority (l : List Overlay) : Prop :=
  l.Pairwise (fun a b => a.priority ≤ b.priority)

/-- Store states reachable from the empty store by the mutation operations. -/
inductive Reachable : OverlayManager → Prop where
  | new : Reachable OverlayManager.new
  | add (m : OverlayManager) (o : Overlay) : Reachable m → Reachable (m.add o)
  | remove_by_id (m : OverlayManager) (x : String) :
      Reachable m → Reachable (m.remove_by_id x)
  | remove_in_range (m : OverlayManager) (r : Range) :
      Reachable m → Reachable (m.remove_in_range r)
  | clear (m : OverlayManager) : Reachable m → Reachable m.clear

/-! ### Helper lemmas -/

theorem priorityLe_trans (a b c : Overlay) :
    priorityLe a b → priorityLe b c → priorityLe a c := by
  simp only [priorityLe, decide_eq_true_iff]
  omega

theorem priorityLe_total (a b : Overlay) : priorityLe a b || priorityLe b a := by
  simp only [priorityLe, Bool.or_eq_true, decide_eq_true_iff]
  omega

theorem add_overlays_pairwise (m : OverlayManager) (x : Overlay) :
    sortedByPriority (m.add x).overlays := by
  have h := List.sorted_mergeSort priorityLe_trans priorityLe_total (m.overlays ++ [x])
  exact h.imp (fun hab => by simpa [priorityLe] using hab)

theorem mergeSort_filter_priority (l : List Overlay) (p : Int) :
    (l.mergeSort priorityLe).filter (fun o => decide (o.priority = p))
      = l.filter (fun o => decide (o.priority = p)) := by
  have hpw : (l.filter (fun o => decide (o.priority = p))).Pairwise
      (fun a b => priorityLe a b = true) := by
    apply List.pairwise_of_forall_mem_list
    intro a ha b hb
    have ha' := (List.mem_filter.mp ha).2
    have hb' := (List.mem_filter.mp hb).2
    simp only [decide_eq_true_iff] at ha' hb'
    simp [priorityLe, ha', hb']
  have hsub : List.Sublist (l.filter (fun o => decide (o.priority = p)))
      (l.mergeSort priorityLe) :=
    List.sublist_mergeSort priorityLe_trans priorityLe_total hpw (List.filter_sublist l)
  have hsub2 := List.Sublist.filter (fun o => decide (o.priority = p)) hsub
  rw [List.filter_filter] at hsub2
  have hff : (fun a : Overlay => decide (a.priority = p) && decide (a.priority = p))
      = (fun o : Overlay => decide (o.priority = p)) := by
    funext a
    cases h : decide (a.priority = p) <;> simp [h]
  rw [hff] at hsub2
  have hperm : List.Perm ((l.mergeSort priorityLe).filter (fun o => decide (o.priority = p)))
      (l.filter (fun o => decide (o.priority = p))) :=
    (List.mergeSort_perm l priorityLe).filter _
  exact (hsub2.eq_of_length hperm.length_eq.symm).symm

/-! ### Claim theorems -/

/-- C1: immediately after any `add`, the stored sequence is non-decreasing in
priority, and `at_position`, `in_range`, and `all` return their selected
overlays in that ascending-priority store order (each result is a sublist of
the store, hence itself sorted) with no additional sort at query time. -/
theorem add_sorted_and_query_order (m : OverlayManager) (x : Overlay) (p : Nat) (r : Range) :
    sortedByPriority (m.add x).overlays
    ∧ List.Sublist ((m.add x).at_position p) (m.add x).overlays
    ∧ List.Sublist ((m.add x).in_range r) (m.add x).overlays
    ∧ (m.add x).all = (m.add x).overlays
    ∧ sortedByPriority ((m.add x).at_position p)
    ∧ sortedByPriority ((m.add x).in_range r) := by
  have hs := add_overlays_pairwise m x
  exact ⟨hs, List.filter_sublist _, List.filter_sublist _, rfl,
    List.Pairwise.sublist (List.filter_sublist _) hs,
    List.Pairwise.sublist (List.filter_sublist _) hs⟩

/-- C2: `overlaps` is true iff `range.start < r.end` and `r.start < range.end`;
touching ranges (one's end equals the other's start) and pairs of empty
ranges never overlap. -/
theorem overlaps_iff (o : Overlay) (r : Range) :
    (o.overlaps r = true ↔ (o.range.start < r.«end» ∧ r.start < o.range.«end»))
    ∧ (o.range.«end» = r.start → o.overlaps r = false)
    ∧ (r.«end» = o.range.start → o.overlaps r = false)
    ∧ (o.range.start = o.range.«end» → r.start = r.«end» → o.overlaps r = false) := by
  refine ⟨by simp [Overlay.overlaps], ?_, ?_, ?_⟩ <;>
    · intro h
      simp only [Overlay.overlaps, decide_eq_false_iff_not]
      omega

/-- C2 witness at `o.range = [5,10)`, `r = [10,15)`. -/
theorem overlaps_iff_witness :
    ((Overlay.new ⟨5, 10⟩ (OverlayFace.Background Color.Red)).overlaps ⟨10, 15⟩ = true
      ↔ ((5 : Nat) < 15 ∧ (10 : Nat) < 10))
    ∧ ((10 : Nat) = 10 →
        (Overlay.new ⟨5, 10⟩ (OverlayFace.Background Color.Red)).overlaps ⟨10, 15⟩ = false)
    ∧ ((15 : Nat) = 5 →
        (Overlay.new ⟨5, 10⟩ (OverlayFace.Background Color.Red)).overlaps ⟨10, 15⟩ = false)
    ∧ ((5 : Nat) = 10 → (10 : Nat) = 15 →
        (Overlay.new ⟨5, 10⟩ (OverlayFace.Background Color.Red)).overlaps ⟨10, 15⟩ = false) :=
  overlaps_iff (Overlay.new ⟨5, 10⟩ (OverlayFace.Background Color.Red)) ⟨10, 15⟩

/-- C3: `contains` is true iff `range.start ≤ position < range.end`;
the end offset itself is excluded. -/
theorem contains_iff (o : Overlay) (p : Nat) :
    o.contains p = true ↔ (o.range.start ≤ p ∧ p < o.range.«end») := by
  simp [Overlay.contains, Range.contains]

/-- C3 witness at `o.range = [5,10)`, `p = 10` (the excluded end offset). -/
theorem contains_iff_witness :
    (Overlay.new ⟨5, 10⟩ (OverlayFace.Background Color.Red)).contains 10 = true
      ↔ ((5 : Nat) ≤ 10 ∧ (10 : Nat) < 10) :=
  contains_iff (Overlay.new ⟨5, 10⟩ (OverlayFace.Background Color.Red)) 10

/-- C4: `add` is a stable re-sort. For every priority `p`, the subsequence of
equal-priority-`p` overlays after the call equals the one from before the
call, with the new overlay appended at its end when its priority is `p`:
equal-priority overlays already present keep their relative order, and the
inserted overlay lands after all of them. -/
theorem add_stable (m : OverlayManager) (x : Overlay) (p : Int) :
    (m.add x).overlays.filter (fun o => decide (o.priority = p))
      = m.overlays.filter (fun o => decide (o.priority = p))
        ++ (if x.priority = p then [x] else []) := by
  show ((m.overlays ++ [x]).mergeSort priorityLe).filter _ = _
  rw [mergeSort_filter_priority, List.filter_append]
  congr 1
  by_cases h : x.priority = p <;> simp [h]

/-- C5: `remove_in_range(r)` deletes exactly the overlays that overlap `r`:
the survivors are exactly the members that do not overlap `r`, kept unchanged
and in their relative order (a sublist of the original sequence), and when no
overlay overlaps `r` the call leaves the store identical (a no-op, no error). -/
theorem remove_in_range_spec (m : OverlayManager) (r : Range) :
    List.Sublist (m.remove_in_range r).overlays m.overlays
    ∧ (∀ o : Overlay,
        o ∈ (m.remove_in_range r).overlays ↔ (o ∈ m.overlays ∧ o.overlaps r = false))
    ∧ ((∀ o ∈ m.overlays, o.overlaps r = false) → m.remove_in_range r = m)
    := by
  refine ⟨List.filter_sublist _, ?_, ?_⟩
  · intro o
    simp [OverlayManager.remove_in_range, List.mem_filter]
  · intro h
    cases m with
    | mk l =>
      simp only [OverlayManager.remove_in_range, OverlayManager.mk.injEq]
      rw [List.filter_eq_self]
      intro a ha
      simp [h a ha]

/-- C5 witness: store `{[5,10), [15,20)}`, removal range `[0,12)`. -/
theorem remove_in_range_spec_witness :
    List.Sublist
      ((OverlayManager.mk [Overlay.new ⟨5, 10⟩ (OverlayFace.Background Color.Red),
        Overlay.new ⟨15, 20⟩ (OverlayFace.Background Color.Blue)]).remove_in_range
          ⟨0, 12⟩).overlays
      (OverlayManager.mk [Overlay.new ⟨5, 10⟩ (OverlayFace.Background Color.Red),
        Overlay.new ⟨15, 20⟩ (OverlayFace.Background Color.Blue)]).overlays
    ∧ (∀ o : Overlay,
        o ∈ ((OverlayManager.mk [Overlay.new ⟨5, 10⟩ (OverlayFace.Background Color.Red),
          Overlay.new ⟨15, 20⟩ (OverlayFace.Background Color.Blue)]).remove_in_range
            ⟨0, 12⟩).overlays
          ↔ (o ∈ (OverlayManager.mk
                [Overlay.new ⟨5, 10⟩ (OverlayFace.Background Color.Red),
                 Overlay.new ⟨15, 20⟩ (OverlayFace.Background Color.Blue)]).overlays
              ∧ o.overlaps ⟨0, 12⟩ = false))
    ∧ ((∀ o ∈ (OverlayManager.mk
            [Overlay.new ⟨5, 10⟩ (OverlayFace.Background Color.Red),
             Overlay.new ⟨15, 20⟩ (OverlayFace.Background Color.Blue)]).overlays,
          o.overlaps ⟨0, 12⟩ = false) →
        (OverlayManager.mk [Overlay.new ⟨5, 10⟩ (OverlayFace.Background Color.Red),
          Overlay.new ⟨15, 20⟩ (OverlayFace.Background Color.Blue)]).remove_in_range ⟨0, 12⟩
          = OverlayManager.mk [Overlay.new ⟨5, 10⟩ (OverlayFace.Background Color.Red),
              Overlay.new ⟨15, 20⟩ (OverlayFace.Background Color.Blue)]) :=
  remove_in_range_spec
    ⟨[Overlay.new ⟨5, 10⟩ (OverlayFace.Background Color.Red),
      Overlay.new ⟨15, 20⟩ (OverlayFace.Background Color.Blue)]⟩ ⟨0, 12⟩

/-- C6: `remove_by_id(x)` deletes exactly the overlays whose id is `Some x`
(overlays with no id are never matched), the survivors keep their order, the
call is a no-op when nothing matches, and `get_by_id(x)` afterwards is none. -/
theorem remove_by_id_spec (m : OverlayManager) (x : String) :
    (m.remove_by_id x).get_by_id x = none
    ∧ (∀ o : Overlay,
        o ∈ (m.remove_by_id x).overlays ↔ (o ∈ m.overlays ∧ o.id ≠ some x))
    ∧ List.Sublist (m.remove_by_id x).overlays m.overlays
    ∧ ((∀ o ∈ m.overlays, o.id ≠ some x) → m.remove_by_id x = m)
    := by
  refine ⟨?_, ?_, List.filter_sublist _, ?_⟩
  · rw [OverlayManager.get_by_id, List.find?_eq_none]
    intro o ho
    have := (List.mem_filter.mp ho).2
    simpa using this
  · intro o
    simp [OverlayManager.remove_by_id, List.mem_filter]
  · intro h
    cases m with
    | mk l =>
      simp only [OverlayManager.remove_by_id, OverlayManager.mk.injEq]
      rw [List.filter_eq_self]
      intro a ha
      simpa using h a ha

/-- C6 witness: store `{id "e1" on [5,10), id "e2" on [15,20)}`, removing "e1". -/
theorem remove_by_id_spec_witness :
    ((OverlayManager.mk [Overlay.with_id ⟨5, 10⟩ (OverlayFace.Background Color.Red) "e1",
        Overlay.with_id ⟨15, 20⟩ (OverlayFace.Background Color.Blue) "e2"]).remove_by_id
          "e1").get_by_id "e1" = none
    ∧ (∀ o : Overlay,
        o ∈ ((OverlayManager.mk
            [Overlay.with_id ⟨5, 10⟩ (OverlayFace.Background Color.Red) "e1",
             Overlay.with_id ⟨15, 20⟩ (OverlayFace.Background Color.Blue) "e2"]).remove_by_id
              "e1").overlays
          ↔ (o ∈ (OverlayManager.mk
                [Overlay.with_id ⟨5, 10⟩ (OverlayFace.Background Color.Red) "e1",
                 Overlay.with_id ⟨15, 20⟩ (OverlayFace.Background Color.Blue) "e2"]).overlays
              ∧ o.id ≠ some "e1"))
    ∧ List.Sublist
        ((OverlayManager.mk [Overlay.with_id ⟨5, 10⟩ (OverlayFace.Background Color.Red) "e1",
          Overlay.with_id ⟨15, 20⟩ (OverlayFace.Background Color.Blue) "e2"]).remove_by_id
            "e1").overlays
        (OverlayManager.mk [Overlay.with_id ⟨5, 10⟩ (OverlayFace.Background Color.Red) "e1",
          Overlay.with_id ⟨15, 20⟩ (OverlayFace.Background Color.Blue) "e2"]).overlays
    ∧ ((∀ o ∈ (OverlayManager.mk
            [Overlay.with_id ⟨5, 10⟩ (OverlayFace.Background Color.Red) "e1",
             Overlay.with_id ⟨15, 20⟩ (OverlayFace.Background Color.Blue) "e2"]).overlays,
          o.id ≠ some "e1") →
        (OverlayManager.mk [Overlay.with_id ⟨5, 10⟩ (OverlayFace.Background Color.Red) "e1",
          Overlay.with_id ⟨15, 20⟩ (OverlayFace.Background Color.Blue) "e2"]).remove_by_id "e1"
          = OverlayManager.mk
              [Overlay.with_id ⟨5, 10⟩ (OverlayFace.Background Color.Red) "e1",
               Overlay.with_id ⟨15, 20⟩ (OverlayFace.Background Color.Blue) "e2"]) :=
  remove_by_id_spec
    ⟨[Overlay.with_id ⟨5, 10⟩ (OverlayFace.Background Color.Red) "e1",
      Overlay.with_id ⟨15, 20⟩ (OverlayFace.Background Color.Blue) "e2"]⟩ "e1"

/-- C7: `remove_by_id` and `remove_in_range` are idempotent: repeating either
call with the same argument and no intervening `add` changes nothing. -/
theorem remove_idempotent (m : OverlayManager) (x : String) (r : Range) :
    (m.remove_by_id x).remove_by_id x = m.remove_by_id x
    ∧ (m.remove_in_range r).remove_in_range r = m.remove_in_range r := by
  constructor
  · simp only [OverlayManager.remove_by_id, List.filter_filter, OverlayManager.mk.injEq]
    apply List.filter_congr
    intro a _
    cases h : decide (a.id ≠ some x) <;> simp [h]
  · simp only [OverlayManager.remove_in_range, List.filter_filter, OverlayManager.mk.injEq]
    apply List.filter_congr
    intro a _
    cases h : a.overlaps r <;> simp [h]

/-- C8: an empty overlay (`start == end`) contains no position, and is
returned by `in_range(r)` only when `r` is non-empty; any such return
requires, per the overlap rule, that `r` straddle the overlay's boundary
position (`r.start < start = end < r.end`). -/
theorem empty_overlay_queries (m : OverlayManager) (o : Overlay) (p : Nat) (r : Range)
    (h : o.range.start = o.range.«end») :
    o.contains p = false
    ∧ (o ∈ m.in_range r →
        r.start < r.«end» ∧ r.start < o.range.start ∧ o.range.start < r.«end») := by
  constructor
  · simp only [Overlay.contains, Range.contains, decide_eq_false_iff_not]
    omega
  · intro hm
    have hov := (List.mem_filter.mp hm).2
    simp only [Overlay.overlaps, decide_eq_true_iff] at hov
    omega

/-- C8 witness: empty overlay `[5,5)` in the store, query range `[4,6)`,
position 5. -/
theorem empty_overlay_queries_witness :
    (Overlay.selection ⟨5, 5⟩).contains 5 = false
    ∧ (Overlay.selection ⟨5, 5⟩
        ∈ (OverlayManager.mk [Overlay.selection ⟨5, 5⟩]).in_range ⟨4, 6⟩ →
        (4 : Nat) < 6 ∧ (4 : Nat) < 5 ∧ (5 : Nat) < 6) :=
  empty_overlay_queries ⟨[Overlay.selection ⟨5, 5⟩]⟩ (Overlay.selection ⟨5, 5⟩) 5 ⟨4, 6⟩ rfl

/-- C9: the preset constructors produce exactly the fixed priorities
error=10, warning=5, info=3, hint=1, selection=-10, search-match=-5;
error/warning/info/hint attach the supplied message verbatim, while
selection and search-match overlays carry no message. -/
theorem preset_values (r : Range) (msg : Option String) :
    (Overlay.error r msg).priority = 10 ∧ (Overlay.error r msg).message = msg
    ∧ (Overlay.warning r msg).priority = 5 ∧ (Overlay.warning r msg).message = msg
    ∧ (Overlay.info r msg).priority = 3 ∧ (Overlay.info r msg).message = msg
    ∧ (Overlay.hint r msg).priority = 1 ∧ (Overlay.hint r msg).message = msg
    ∧ (Overlay.selection r).priority = -10 ∧ (Overlay.selection r).message = none
    ∧ (Overlay.search_match r).priority = -5 ∧ (Overlay.search_match r).message = none :=
  ⟨rfl, rfl, rfl, rfl, rfl, rfl, rfl, rfl, rfl, rfl, rfl, rfl⟩

/-- C10: `remove_by_id`, `remove_in_range`, and `clear` preserve sortedness
of the stored sequence, and consequently every store reachable from the
empty store via `add`, `remove_by_id`, `remove_in_range`, and `clear` has a
sequence non-decreasing in priority. -/
theorem removals_preserve_sorted (m : OverlayManager) (x : String) (r : Range)
    (h : sortedByPriority m.overlays) :
    sortedByPriority (m.remove_by_id x).overlays
    ∧ sortedByPriority (m.remove_in_range r).overlays
    ∧ sortedByPriority (m.clear).overlays
    ∧ (∀ m' : OverlayManager, Reachable m' → sortedByPriority m'.overlays) := by
  refine ⟨List.Pairwise.filter _ h, List.Pairwise.filter _ h, List.Pairwise.nil, ?_⟩
  intro m' hr
  induction hr with
  | new => exact List.Pairwise.nil
  | add n o _ ih => exact add_overlays_pairwise n o
  | remove_by_id n y _ ih => exact List.Pairwise.filter _ ih
  | remove_in_range n s _ ih => exact List.Pairwise.filter _ ih
  | clear n _ _ => exact List.Pairwise.nil

/-- C10 witness: a sorted two-element store (priorities -10 and 10). -/
theorem removals_preserve_sorted_witness :
    sortedByPriority
      ((OverlayManager.mk [Overlay.selection ⟨0, 1⟩,
        Overlay.error ⟨0, 1⟩ none]).remove_by_id "e1").overlays
    ∧ sortedByPriority
        ((OverlayManager.mk [Overlay.selection ⟨0, 1⟩,
          Overlay.error ⟨0, 1⟩ none]).remove_in_range ⟨2, 3⟩).overlays
    ∧ sortedByPriority
        ((OverlayManager.mk [Overlay.selection ⟨0, 1⟩,
          Overlay.error ⟨0, 1⟩ none]).clear).overlays
    ∧ (∀ m' : OverlayManager, Reachable m' → sortedByPriority m'.overlays) :=
  removals_preserve_sorted
    ⟨[Overlay.selection ⟨0, 1⟩, Overlay.error ⟨0, 1⟩ none]⟩ "e1" ⟨2, 3⟩ (by decide)
